import Mathlib

/-!
Shallow embedding of `cryptostore/data/influx.py`: the `chunk` helper, the
encoding / timestamp-disambiguation logic of `InfluxDB.write`, and
`InfluxDB.get_start_date`.

Python dictionaries become association lists, Python exceptions become
`Except`, and the two HTTP endpoints become explicit parameters (a
`post : String → Bool` success oracle for the write endpoint, an
`Except Unit Json` response value for the query endpoint).
-/

set_option linter.unusedVariables false

namespace Cryptostore

/-- A nonnegative decimal number `mant / 10 ^ scale`: the exact value of a
numeric record field (timestamp, price, bid, ...) as it reaches
`InfluxDB.write`.  `Decimal(x) * 1000000000` followed by `int(...)` in the
source is exact decimal scaling with truncation, which on nonnegative
values is `mant * 10 ^ 9 / 10 ^ scale` in natural-number arithmetic. -/
structure Decimal where
  mant : Nat
  scale : Nat
deriving DecidableEq, Repr

/-- `int(Decimal(d) * 1000000000)` for the decimal `d` (influx.py lines 51,
61, 66, 74, 85). -/
def Decimal.toNanos (d : Decimal) : Nat :=
  d.mant * 1000000000 / 10 ^ d.scale

/-- The decimal's textual form, as Python `str` renders it inside an
f-string: the digits of `mant` with a point inserted `scale` places from
the right (zero-padded so an integer part is always present). -/
def Decimal.render (d : Decimal) : String :=
  if d.scale = 0 then toString d.mant
  else
    let s := toString d.mant
    let s := if s.length ≤ d.scale then
        String.mk (List.replicate (d.scale + 1 - s.length) '0') ++ s
      else s
    s.take (s.length - d.scale) ++ "." ++ s.drop (s.length - d.scale)

/-- A record field value.  `vfloat` is a Python `float` carrying its exact
decimal value; `vstr` models every non-float value (side strings, ids,
booleans, ...) through the text `str(value)` produces for it. -/
inductive Value where
  | vfloat (d : Decimal)
  | vstr (s : String)
deriving DecidableEq, Repr

/-- What `f"{value}"` interpolates for the value. -/
def Value.pyStr : Value → String
  | .vfloat d => d.render
  | .vstr s => s

/-- `isinstance(value, float)` (influx.py lines 88-89). -/
def Value.isFloat : Value → Bool
  | .vfloat _ => true
  | .vstr _ => false

/-- A record: a Python dict, as an association list preserving insertion
order. -/
abbrev Entry := List (String × Value)

/-- The Python exceptions the embedded code can raise. -/
inductive PyError where
  | keyError (key : String)
  | typeError (msg : String)
  | invalidOperation
  | httpError
deriving DecidableEq, Repr

/-- `entry[key]`: the value, or a `KeyError` when the key is absent. -/
def getKey (entry : Entry) (key : String) : Except PyError Value :=
  match entry.lookup key with
  | some v => .ok v
  | none => .error (.keyError key)

/-- `int(Decimal(entry["timestamp"]) * 1000000000)` on a field value.
`vstr` models non-numeric values, on which the `Decimal` constructor
raises `InvalidOperation`. -/
def decimalNanos : Value → Except PyError Nat
  | .vfloat d => .ok d.toNanos
  | .vstr _ => .error .invalidOperation

/-- One line of line protocol.  Every f-string in `InfluxDB.write` has the
shape `{measurement},{tags} {fields} {ts}`; the four components are kept
separate so that theorems can speak about the (measurement, tag-set,
index-timestamp) triple, and `render` reassembles the exact string. -/
structure EncodedLine where
  meas : String
  tags : String
  fields : String
  ts : Nat
deriving DecidableEq, Repr

/-- The full line as the Python f-string produces it. -/
def EncodedLine.render (l : EncodedLine) : String :=
  l.meas ++ "," ++ l.tags ++ " " ++ l.fields ++ " " ++ toString l.ts

/-- Modelled from the spec: the record-kind constants are imported from
`cryptofeed.defines`, which is not part of this repository's source.  The
spec names the kinds trades / ticker / level-2 book / level-3 book /
funding / open-interest, and the docstring example `ticker-BITMEX` fixes
the wire names as the lower-case kind names. -/
def TRADES : String := "trades"

/-- Modelled from the spec: see `TRADES`. -/
def TICKER : String := "ticker"

/-- Modelled from the spec: see `TRADES`. -/
def L2_BOOK : String := "l2_book"

/-- Modelled from the spec: see `TRADES`. -/
def L3_BOOK : String := "l3_book"

/-- Modelled from the spec: see `TRADES`. -/
def FUNDING : String := "funding"

/-- Modelled from the spec: see `TRADES`. -/
def OPEN_INTEREST : String := "open_interest"

/-- `while ts in used_ts: ts += 1` (influx.py lines 67-68 and 75-76),
run for at most `fuel` loop tests. -/
def probeGo : Nat → List Nat → Nat → Nat
  | 0, _, ts => ts
  | fuel + 1, used, ts => if ts ∈ used then probeGo fuel used (ts + 1) else ts

/-- The collision-resolution loop `while ts in used_ts: ts += 1`.  Each
iteration that increments `ts` witnesses a distinct member of `used` (the
probed values are strictly increasing), so the loop performs at most
`used.length` increments; `used.length + 1` tests of fuel therefore
reproduce the exact while-loop result.  `probe_eq` below recovers the
loop equation `probe used ts = if ts ∈ used then probe used (ts + 1) else ts`. -/
def probe (used : List Nat) (ts : Nat) : Nat :=
  probeGo (used.length + 1) used ts

/-- The `TRADES` branch of `InfluxDB.write` (influx.py lines 49-59).
Line 48 binds `used_ts = set()`, so the subscript `used_ts[pair]` in
`while ts in used_ts[pair]` (line 52) raises `TypeError` on the first
entry, right after `entry["timestamp"]` has been read and converted at
line 51.  The loop therefore never appends a line: an empty batch yields
no lines, a non-empty batch raises. -/
def encodeTradesBatch (exchange pair : String) (data : List Entry) :
    Except PyError (List EncodedLine) :=
  match data with
  | [] => .ok []
  | entry :: _ => do
    let tv ← getKey entry "timestamp"
    let _ ← decimalNanos tv
    .error (.typeError "set object is not subscriptable")

/-- One iteration of the `TICKER` branch (influx.py lines 61-64).  The
trailing `ts += 1` at line 64 rebinds the loop-local `ts` after the line
has already been appended, and `ts` is recomputed from the next entry at
line 61, so the increment has no observable effect and is omitted. -/
def encodeTickerEntry (exchange pair : String) (entry : Entry) :
    Except PyError EncodedLine := do
  let tv ← getKey entry "timestamp"
  let ts ← decimalNanos tv
  let bv ← getKey entry "bid"
  let av ← getKey entry "ask"
  .ok { meas := TICKER ++ "-" ++ exchange
        tags := "pair=" ++ pair
        fields := "bid=" ++ bv.pyStr ++ ",ask=" ++ av.pyStr ++ ",timestamp=" ++ tv.pyStr
        ts := ts }

/-- The `TICKER` branch of `InfluxDB.write` (influx.py lines 60-64): one
appended line per entry, aborting at the first raising entry. -/
def encodeTickerBatch (exchange pair : String) :
    List Entry → Except PyError (List EncodedLine)
  | [] => .ok []
  | entry :: rest => do
    let line ← encodeTickerEntry exchange pair entry
    let lines ← encodeTickerBatch exchange pair rest
    .ok (line :: lines)

/-- The `L2_BOOK` branch of `InfluxDB.write` (influx.py lines 65-71),
threading the `used_ts` collision set through the loop. -/
def encodeL2Batch (exchange pair : String) :
    List Entry → List Nat → Except PyError (List EncodedLine)
  | [], _ => .ok []
  | entry :: rest, used => do
    let tv ← getKey entry "timestamp"
    let base ← decimalNanos tv
    let ts := probe used base
    let dv ← getKey entry "delta"
    let sv ← getKey entry "side"
    let pv ← getKey entry "price"
    let zv ← getKey entry "size"
    let line : EncodedLine :=
      { meas := L2_BOOK ++ "-" ++ exchange
        tags := "pair=" ++ pair ++ ",delta=" ++ dv.pyStr
        fields := "side=\"" ++ sv.pyStr ++ "\",timestamp=" ++ tv.pyStr
                    ++ ",price=" ++ pv.pyStr ++ ",amount=" ++ zv.pyStr
        ts := ts }
    let lines ← encodeL2Batch exchange pair rest (ts :: used)
    .ok (line :: lines)

/-- The `L3_BOOK` branch of `InfluxDB.write` (influx.py lines 72-81).
Same collision handling as level 2; `price` and `amount` are quoted and
the order id comes from `order_id`.  The trailing `ts += 1` at line 81 is
dead for the same reason as in the ticker branch. -/
def encodeL3Batch (exchange pair : String) :
    List Entry → List Nat → Except PyError (List EncodedLine)
  | [], _ => .ok []
  | entry :: rest, used => do
    let tv ← getKey entry "timestamp"
    let base ← decimalNanos tv
    let ts := probe used base
    let dv ← getKey entry "delta"
    let sv ← getKey entry "side"
    let ov ← getKey entry "order_id"
    let pv ← getKey entry "price"
    let zv ← getKey entry "size"
    let line : EncodedLine :=
      { meas := L3_BOOK ++ "-" ++ exchange
        tags := "pair=" ++ pair ++ ",delta=" ++ dv.pyStr
        fields := "side=\"" ++ sv.pyStr ++ "\",id=\"" ++ ov.pyStr
                    ++ "\",timestamp=" ++ tv.pyStr ++ ",price=\"" ++ pv.pyStr
                    ++ "\",amount=\"" ++ zv.pyStr ++ "\""
        ts := ts }
    let lines ← encodeL3Batch exchange pair rest (ts :: used)
    .ok (line :: lines)

/-- `{key:value for (key, value) in entry.items() if key not in ['pair', 'feed']}`
(influx.py line 86). -/
def fundingTentry (entry : Entry) : Entry :=
  entry.filter fun kv => kv.1 != "pair" && kv.1 != "feed"

/-- `[f"{key}={value}" for key, value in tentry.items() if isinstance(value, float)]`
(influx.py line 88). -/
def fundingFloats (t : Entry) : List String :=
  (t.filter fun kv => kv.2.isFloat).map fun kv => kv.1 ++ "=" ++ kv.2.pyStr

/-- The quoted renderings of the non-float tentry items (influx.py line 89). -/
def fundingOthers (t : Entry) : List String :=
  (t.filter fun kv => !kv.2.isFloat).map fun kv => kv.1 ++ "=\"" ++ kv.2.pyStr ++ "\""

/-- The list joined at influx.py line 89: unquoted float fields first,
then quoted non-float fields, both in insertion order. -/
def fundingFormatted (entry : Entry) : List String :=
  fundingFloats (fundingTentry entry) ++ fundingOthers (fundingTentry entry)

/-- One iteration of the `FUNDING` / `OPEN_INTEREST` branch (influx.py
lines 84-91); the trailing `ts += 1` at line 91 is dead as in the ticker
branch. -/
def encodeFundingEntry (data_type exchange pair : String) (entry : Entry) :
    Except PyError EncodedLine := do
  let tv ← getKey entry "timestamp"
  let ts ← decimalNanos tv
  .ok { meas := data_type ++ "-" ++ exchange
        tags := "pair=" ++ pair
        fields := String.intercalate "," (fundingFormatted entry)
        ts := ts }

/-- The `FUNDING` / `OPEN_INTEREST` branch of `InfluxDB.write`
(influx.py lines 82-91): one appended line per entry, aborting at the
first raising entry. -/
def encodeFundingBatch (data_type exchange pair : String) :
    List Entry → Except PyError (List EncodedLine)
  | [] => .ok []
  | entry :: rest => do
    let line ← encodeFundingEntry data_type exchange pair entry
    let lines ← encodeFundingBatch data_type exchange pair rest
    .ok (line :: lines)

/-- The `if data_type == ...` dispatch of `InfluxDB.write` (influx.py
lines 49-91), producing the `agg` list.  An unrecognized data type falls
through every branch and leaves `agg` empty. -/
def encodeBatch (exchange data_type pair : String) (data : List Entry) :
    Except PyError (List EncodedLine) :=
  if data_type = TRADES then encodeTradesBatch exchange pair data
  else if data_type = TICKER then encodeTickerBatch exchange pair data
  else if data_type = L2_BOOK then encodeL2Batch exchange pair data []
  else if data_type = L3_BOOK then encodeL3Batch exchange pair data []
  else if data_type = FUNDING ∨ data_type = OPEN_INTEREST then
    encodeFundingBatch data_type exchange pair data
  else .ok []

/-- Python `range(start, stop, step)` for a positive step. -/
def pyRange (start stop step : Nat) : List Nat :=
  (List.range ((stop - start + step - 1) / step)).map fun k => start + k * step

/-- `chunk(iterable, length)` (influx.py lines 16-17):
`(iterable[i : i + length] for i in range(0, len(iterable), length))`. -/
def chunk (iterable : List α) (length : Nat) : List (List α) :=
  (pyRange 0 iterable.length length).map fun i => (iterable.drop i).take length

/-- The request bodies of the write loop (influx.py lines 96-97): the
rendered lines, chunked 5000 at a time, each chunk newline-joined. -/
def requestBodies (lines : List EncodedLine) : List String :=
  (chunk (lines.map EncodedLine.render) 5000).map fun c => String.intercalate "\n" c

/-- The posting loop (influx.py lines 96-99): bodies are posted in order;
`raise_for_status()` aborts the loop at the first failed request.  Returns
the bodies actually posted (the failed one included) and whether all
succeeded. -/
def sendChunks (post : String → Bool) : List String → List String × Bool
  | [] => ([], true)
  | b :: rest =>
    if post b then
      let r := sendChunks post rest
      (b :: r.1, r.2)
    else ([b], false)

/-- Observable outcome of one `InfluxDB.write` call: the request bodies
posted, the value of `self.data` when the call ends, and the exception it
raises, if any. -/
structure WriteResult where
  sent : List String
  dataAfter : Option (List Entry)
  err : Option PyError
deriving DecidableEq, Repr

/-- `InfluxDB.write` (influx.py lines 33-100).  `data` is `self.data` on
entry (set by `aggregate`); the unused `timestamp` parameter of the Python
signature is dropped.  `if not self.data: return` leaves `self.data`
untouched when it is `None` or the empty list; an exception anywhere
(encoding or a failed chunk) propagates before `self.data = None` at
line 100 runs. -/
def write (exchange data_type pair : String) (data : Option (List Entry))
    (post : String → Bool) : WriteResult :=
  match data with
  | none => { sent := [], dataAfter := none, err := none }
  | some [] => { sent := [], dataAfter := some [], err := none }
  | some (entry :: rest) =>
    match encodeBatch exchange data_type pair (entry :: rest) with
    | .error e => { sent := [], dataAfter := some (entry :: rest), err := some e }
    | .ok lines =>
      let r := sendChunks post (requestBodies lines)
      if r.2 then { sent := r.1, dataAfter := none, err := none }
      else { sent := r.1, dataAfter := some (entry :: rest), err := some .httpError }

/-- A JSON value, as returned by `r.json()` in `get_start_date`. -/
inductive Json where
  | null
  | jstr (s : String)
  | jnum (d : Decimal)
  | jarr (items : List Json)
  | jobj (entries : List (String × Json))

/-- `j[key]` on a JSON value: fails (raises, in Python) unless `j` is an
object holding the key. -/
def Json.getKey : Json → String → Option Json
  | .jobj es, k => es.lookup k
  | _, _ => none

/-- `j[i]` on a JSON value: fails unless `j` is an array long enough. -/
def Json.getIdx : Json → Nat → Option Json
  | .jarr xs, i => xs[i]?
  | _, _ => none

/-- The subscript chain `r.json()['results'][0]['series'][0]['values'][0][1]`
(influx.py line 105); any failing step raises in Python. -/
def firstValueCell (j : Json) : Option Json := do
  let a ← j.getKey "results"
  let a ← a.getIdx 0
  let a ← a.getKey "series"
  let a ← a.getIdx 0
  let a ← a.getKey "values"
  let a ← a.getIdx 0
  a.getIdx 1

/-- `InfluxDB.get_start_date` (influx.py lines 102-107).  `resp` is the
outcome of the GET request plus JSON parse: `.error` for a transport or
parse failure, `.ok j` for a parsed body `j`.  The `try ... except
Exception: return None` collapses every failure — transport, parse, or a
raising subscript in the extraction chain — to `none`. -/
def get_start_date (resp : Except Unit Json) : Option Json :=
  match resp with
  | .error _ => none
  | .ok j =>
    match firstValueCell j with
    | some v => some v
    | none => none

/-- Spec-side rendering rule for one funding field (spec section 4.1):
unquoted when the value is a float, double-quoted otherwise. -/
def renderField (kv : String × Value) : String :=
  if kv.2.isFloat then kv.1 ++ "=" ++ kv.2.pyStr
  else kv.1 ++ "=\"" ++ kv.2.pyStr ++ "\""

/-! ## Helper lemmas -/

theorem countP_ge_mono (l : List Nat) (t : Nat) :
    l.countP (fun x => decide (t + 1 ≤ x)) ≤ l.countP (fun x => decide (t ≤ x)) := by
  induction l with
  | nil => simp
  | cons b m ihm =>
    simp only [List.countP_cons]
    by_cases hb : t + 1 ≤ b
    · have hb2 : t ≤ b := by omega
      simp [hb, hb2]
      omega
    · by_cases hb2 : t ≤ b
      · simp [hb, hb2]
        omega
      · simp [hb, hb2]
        omega

theorem countP_ge_strict (l : List Nat) (t : Nat) (hl : t ∈ l) :
    l.countP (fun x => decide (t + 1 ≤ x)) < l.countP (fun x => decide (t ≤ x)) := by
  induction l with
  | nil => cases hl
  | cons a m ihm =>
    simp only [List.countP_cons]
    rcases List.mem_cons.mp hl with rfl | hmem
    · have h1 : ¬ (t + 1 ≤ t) := by omega
      have h2 : t ≤ t := Nat.le_refl t
      have hk := countP_ge_mono m t
      simp [h1, h2]
      omega
    · have hi := ihm hmem
      by_cases hb : t + 1 ≤ a
      · have hb2 : t ≤ a := by omega
        simp [hb, hb2]
        omega
      · by_cases hb2 : t ≤ a
        · simp [hb, hb2]
          omega
        · simp [hb, hb2]
          omega

/-- With fuel exceeding the number of members of `used` that are ≥ `ts`,
the fuel bound is never hit and the loop result is outside `used`. -/
theorem probeGo_not_mem (fuel : Nat) (used : List Nat) (ts : Nat)
    (h : used.countP (fun x => decide (ts ≤ x)) < fuel) :
    probeGo fuel used ts ∉ used := by
  induction fuel generalizing ts with
  | zero => omega
  | succ f ih =>
    by_cases hm : ts ∈ used
    · have hs := countP_ge_strict used ts hm
      simp only [probeGo, hm, if_true]
      exact ih (ts + 1) (by omega)
    · simpa only [probeGo, hm, if_false] using hm

/-- The loop result does not depend on the fuel, once the fuel is
sufficient. -/
theorem probeGo_congr (f1 f2 : Nat) (used : List Nat) (ts : Nat)
    (h1 : used.countP (fun x => decide (ts ≤ x)) < f1)
    (h2 : used.countP (fun x => decide (ts ≤ x)) < f2) :
    probeGo f1 used ts = probeGo f2 used ts := by
  induction f1 generalizing f2 ts with
  | zero => omega
  | succ f ih =>
    match f2, h2 with
    | g + 1, h2 =>
      by_cases hm : ts ∈ used
      · have hs := countP_ge_strict used ts hm
        simp only [probeGo, hm, if_true]
        exact ih g (ts + 1) (by omega) (by omega)
      · simp only [probeGo, hm, if_false]

/-- The disambiguated timestamp is fresh: `probe used ts ∉ used`. -/
theorem probe_not_mem (used : List Nat) (ts : Nat) : probe used ts ∉ used :=
  probeGo_not_mem (used.length + 1) used ts
    (Nat.lt_succ_of_le (List.countP_le_length _))

/-- `probe` satisfies the defining equation of the Python while loop
`while ts in used_ts: ts += 1`. -/
theorem probe_eq (used : List Nat) (ts : Nat) :
    probe used ts = if ts ∈ used then probe used (ts + 1) else ts := by
  unfold probe
  by_cases hm : ts ∈ used
  · have hs := countP_ge_strict used ts hm
    have hl : used.countP (fun x => decide (ts ≤ x)) ≤ used.length :=
      List.countP_le_length _
    simp only [probeGo, hm, if_true]
    exact probeGo_congr (used.length) (used.length + 1) used (ts + 1)
      (by omega) (by omega)
  · simp only [probeGo, hm, if_false]

@[simp] theorem error_bind (e : ε) (f : α → Except ε β) :
    (Except.error e >>= f : Except ε β) = .error e := rfl

@[simp] theorem ok_bind (a : α) (f : α → Except ε β) :
    (Except.ok a >>= f : Except ε β) = f a := rfl

theorem chunk_nil (n : Nat) : chunk ([] : List α) n = [] := by
  rcases n with _ | m
  · simp [chunk, pyRange]
  · have h0 : m / (m + 1) = 0 := Nat.div_eq_of_lt (by omega)
    simp [chunk, pyRange, h0]

theorem chunk_cons (l : List α) (n : Nat) (hl : l ≠ []) (hn : 0 < n) :
    chunk l n = l.take n :: chunk (l.drop n) n := by
  have hL : 1 ≤ l.length := List.length_pos.mpr hl
  have hdrop : (l.drop n).length = l.length - n := List.length_drop n l
  have hM : (l.length - 0 + n - 1) / n = ((l.length - n - 0) + n - 1) / n + 1 := by
    rcases le_or_lt n l.length with hc | hc
    · have he : l.length - 0 + n - 1 = ((l.length - n - 0) + n - 1) + n := by omega
      rw [he, Nat.add_div_right _ hn]
    · have h1 : (l.length - 0 + n - 1) / n = 1 :=
        Nat.div_eq_of_lt_le (by omega) (by omega)
      have h2 : (l.length - n - 0 + n - 1) / n = 0 := Nat.div_eq_of_lt (by omega)
      omega
  simp only [chunk, pyRange, hdrop, List.map_map]
  rw [hM, List.range_succ_eq_map, List.map_cons, List.map_map]
  refine congrArg₂ List.cons ?_ ?_
  · simp
  · refine List.map_congr_left fun k hk => ?_
    simp only [Function.comp_apply]
    rw [List.drop_drop]
    congr 2
    rw [Nat.succ_mul]
    ring

theorem chunk_flatten (n : Nat) (hn : 0 < n) (l : List α) :
    (chunk l n).flatten = l := by
  by_cases hl : l = []
  · subst hl
    rw [chunk_nil]
    rfl
  · rw [chunk_cons l n hl hn, List.flatten_cons, chunk_flatten n hn (l.drop n)]
    exact List.take_append_drop n l
termination_by l.length
decreasing_by
  have h1 : 0 < l.length := List.length_pos.mpr hl
  simp only [List.length_drop]
  omega

theorem chunk_length_le (l : List α) (n : Nat) (c : List α) (hc : c ∈ chunk l n) :
    c.length ≤ n := by
  simp only [chunk, List.mem_map] at hc
  obtain ⟨i, _, rfl⟩ := hc
  calc ((l.drop i).take n).length = min n (l.drop i).length := List.length_take n _
    _ ≤ n := Nat.min_le_left n _

theorem sendChunks_all (post : String → Bool) (bs : List String)
    (h : ∀ b ∈ bs, post b = true) : sendChunks post bs = (bs, true) := by
  induction bs with
  | nil => rfl
  | cons b rest ih =>
    have hb : post b = true := h b (List.mem_cons_self b rest)
    have hrest := ih fun x hx => h x (List.mem_cons_of_mem _ hx)
    simp [sendChunks, hb, hrest]

theorem sendChunks_fail (post : String → Bool) (good : List String) (b : String)
    (rest : List String) (hg : ∀ g ∈ good, post g = true) (hb : post b = false) :
    sendChunks post (good ++ b :: rest) = (good ++ [b], false) := by
  induction good with
  | nil => simp [sendChunks, hb]
  | cons a g ih =>
    have ha : post a = true := hg a (List.mem_cons_self a g)
    have hrec := ih fun x hx => hg x (List.mem_cons_of_mem _ hx)
    simp [sendChunks, ha, hrec]

theorem bind_ok_inv {ε α β : Type} {x : Except ε α} {f : α → Except ε β} {b : β}
    (h : (x >>= f) = .ok b) : ∃ a, x = .ok a ∧ f a = .ok b := by
  cases x with
  | error e => simp at h
  | ok a => exact ⟨a, rfl, by simpa using h⟩

/-- Freshness invariant of the level-2 loop: every emitted index timestamp
avoids the incoming collision set, and the emitted index timestamps are
pairwise distinct. -/
theorem encodeL2_fresh (exchange pair : String) (entries : List Entry) :
    ∀ (used : List Nat) (lines : List EncodedLine),
      encodeL2Batch exchange pair entries used = .ok lines →
      (∀ l ∈ lines, l.ts ∉ used) ∧ (lines.map EncodedLine.ts).Nodup := by
  induction entries with
  | nil =>
    intro used lines h
    simp only [encodeL2Batch] at h
    cases h
    simp
  | cons entry rest ih =>
    intro used lines h
    simp only [encodeL2Batch] at h
    obtain ⟨tv, htv, h⟩ := bind_ok_inv h
    obtain ⟨base, hbase, h⟩ := bind_ok_inv h
    obtain ⟨dv, hdv, h⟩ := bind_ok_inv h
    obtain ⟨sv, hsv, h⟩ := bind_ok_inv h
    obtain ⟨pv, hpv, h⟩ := bind_ok_inv h
    obtain ⟨zv, hzv, h⟩ := bind_ok_inv h
    obtain ⟨ls, hrec, h⟩ := bind_ok_inv h
    injection h with h
    subst h
    have ihh := ih (probe used base :: used) ls hrec
    constructor
    · intro l hl
      rcases List.mem_cons.mp hl with rfl | hl
      · simpa using probe_not_mem used base
      · intro hc
        exact (ihh.1 l hl) (List.mem_cons_of_mem _ hc)
    · simp only [List.map_cons, List.nodup_cons]
      refine ⟨?_, ihh.2⟩
      intro hc
      obtain ⟨l, hl, hlts⟩ := List.mem_map.mp hc
      apply ihh.1 l hl
      rw [hlts]
      exact List.mem_cons_self _ _

/-- Freshness invariant of the level-3 loop, identical to the level-2 one. -/
theorem encodeL3_fresh (exchange pair : String) (entries : List Entry) :
    ∀ (used : List Nat) (lines : List EncodedLine),
      encodeL3Batch exchange pair entries used = .ok lines →
      (∀ l ∈ lines, l.ts ∉ used) ∧ (lines.map EncodedLine.ts).Nodup := by
  induction entries with
  | nil =>
    intro used lines h
    simp only [encodeL3Batch] at h
    cases h
    simp
  | cons entry rest ih =>
    intro used lines h
    simp only [encodeL3Batch] at h
    obtain ⟨tv, htv, h⟩ := bind_ok_inv h
    obtain ⟨base, hbase, h⟩ := bind_ok_inv h
    obtain ⟨dv, hdv, h⟩ := bind_ok_inv h
    obtain ⟨sv, hsv, h⟩ := bind_ok_inv h
    obtain ⟨ov, hov, h⟩ := bind_ok_inv h
    obtain ⟨pv, hpv, h⟩ := bind_ok_inv h
    obtain ⟨zv, hzv, h⟩ := bind_ok_inv h
    obtain ⟨ls, hrec, h⟩ := bind_ok_inv h
    injection h with h
    subst h
    have ihh := ih (probe used base :: used) ls hrec
    constructor
    · intro l hl
      rcases List.mem_cons.mp hl with rfl | hl
      · simpa using probe_not_mem used base
      · intro hc
        exact (ihh.1 l hl) (List.mem_cons_of_mem _ hc)
    · simp only [List.map_cons, List.nodup_cons]
      refine ⟨?_, ihh.2⟩
      intro hc
      obtain ⟨l, hl, hlts⟩ := List.mem_map.mp hc
      apply ihh.1 l hl
      rw [hlts]
      exact List.mem_cons_self _ _

/-- The two comprehensions of the funding branch — unquoted floats first,
quoted non-floats second — mention exactly the items of the filtered
entry, once each, rendered by the quoting rule. -/
theorem funding_floats_others_perm (t : Entry) :
    (fundingFloats t ++ fundingOthers t).Perm (t.map renderField) := by
  induction t with
  | nil => simp [fundingFloats, fundingOthers]
  | cons kv rest ih =>
    by_cases hf : kv.2.isFloat
    · simp only [fundingFloats, fundingOthers, List.filter_cons, hf,
        Bool.not_true, List.map_cons, List.cons_append, renderField, if_pos]
      exact ih.cons _
    · simp only [fundingFloats, fundingOthers, List.filter_cons, hf,
        Bool.not_false, List.map_cons, renderField, if_neg]
      exact List.perm_middle.trans (ih.cons _)


theorem of_not_ok {ε α : Type} {x : Except ε α} (h : ∀ v, x ≠ .ok v) :
    ∃ e, x = .error e := by
  cases x with
  | error e => exact ⟨e, rfl⟩
  | ok v => exact absurd rfl (h v)

/-! ## Claims -/

/-- C1: the claim promises distinct ascending per-pair index timestamps
for trades, e.g. `1577201710063000000/...001/...002` for three trades at
1577201710.063.  The code cannot deliver this: `used_ts` is bound to
`set()` and then subscripted as `used_ts[pair]`, which raises `TypeError`
for the very first trade, so a non-empty trades batch always raises and
`self.data` is never released.  This theorem evaluates the code at the
claim's own scenario (three BTC-USD trades at 1577201710.063). -/
theorem trades_write_always_raises :
    encodeTradesBatch "COINBASE" "BTC-USD"
        [[("timestamp", Value.vfloat ⟨1577201710063, 3⟩), ("side", Value.vstr "buy"),
          ("amount", Value.vfloat ⟨5, 1⟩), ("price", Value.vfloat ⟨73125, 1⟩)],
         [("timestamp", Value.vfloat ⟨1577201710063, 3⟩), ("side", Value.vstr "sell"),
          ("amount", Value.vfloat ⟨25, 1⟩), ("price", Value.vfloat ⟨73126, 1⟩)],
         [("timestamp", Value.vfloat ⟨1577201710063, 3⟩), ("side", Value.vstr "buy"),
          ("amount", Value.vfloat ⟨1, 0⟩), ("price", Value.vfloat ⟨73127, 1⟩)]] =
      .error (.typeError "set object is not subscriptable") ∧
    write "COINBASE" TRADES "BTC-USD"
        (some [[("timestamp", Value.vfloat ⟨1577201710063, 3⟩), ("side", Value.vstr "buy"),
                ("amount", Value.vfloat ⟨5, 1⟩), ("price", Value.vfloat ⟨73125, 1⟩)]])
        (fun _ => true) =
      { sent := [],
        dataAfter := some [[("timestamp", Value.vfloat ⟨1577201710063, 3⟩),
          ("side", Value.vstr "buy"), ("amount", Value.vfloat ⟨5, 1⟩),
          ("price", Value.vfloat ⟨73125, 1⟩)]],
        err := some (.typeError "set object is not subscriptable") } :=
  ⟨rfl, rfl⟩

/-- C2: the claim promises that two ticker records with equal original
timestamps get different index timestamps.  They do not: the `ts += 1`
after the append is dead (`ts` is recomputed from the next entry), so the
two lines below — a single write cycle — share the measurement
`ticker-BITMEX`, the tag-set `pair=ETHUSD`, and the index timestamp
`1577201710063000000`, violating the claimed invariant. -/
theorem ticker_duplicate_index_timestamps :
    encodeTickerBatch "BITMEX" "ETHUSD"
        [[("timestamp", Value.vfloat ⟨1577201710063, 3⟩), ("bid", Value.vfloat ⟨1288, 1⟩),
          ("ask", Value.vfloat ⟨12895, 2⟩)],
         [("timestamp", Value.vfloat ⟨1577201710063, 3⟩), ("bid", Value.vfloat ⟨1289, 1⟩),
          ("ask", Value.vfloat ⟨12905, 2⟩)]] =
      .ok [{ meas := "ticker-BITMEX", tags := "pair=ETHUSD",
             fields := "bid=128.8,ask=128.95,timestamp=1577201710.063",
             ts := 1577201710063000000 },
           { meas := "ticker-BITMEX", tags := "pair=ETHUSD",
             fields := "bid=128.9,ask=129.05,timestamp=1577201710.063",
             ts := 1577201710063000000 }] :=
  rfl

/-- C3: in a level-2 or level-3 book-delta batch, the emitted index
timestamps are globally unique within the batch: one collision set (the
function-level `used_ts`, passed in empty) spans the whole batch and is
probed by +1 increments. -/
theorem book_delta_index_timestamps_unique :
    ∀ (exchange pair : String) (entries : List Entry) (lines : List EncodedLine),
      (encodeL2Batch exchange pair entries [] = .ok lines →
        (lines.map EncodedLine.ts).Nodup) ∧
      (encodeL3Batch exchange pair entries [] = .ok lines →
        (lines.map EncodedLine.ts).Nodup) :=
  fun exchange pair entries lines =>
    ⟨fun h => (encodeL2_fresh exchange pair entries [] lines h).2,
     fun h => (encodeL3_fresh exchange pair entries [] lines h).2⟩

/-- C3 witness: two level-2 deltas and two level-3 deltas, each pair with
identical timestamps, encode successfully and the resulting index
timestamps (1000000000 and 1000000001) are distinct. -/
theorem book_delta_index_timestamps_unique_witness :
    (([{ meas := "l2_book-X", tags := "pair=P,delta=T",
         fields := "side=\"b\",timestamp=1,price=2,amount=3", ts := 1000000000 },
       { meas := "l2_book-X", tags := "pair=P,delta=T",
         fields := "side=\"b\",timestamp=1,price=2,amount=3", ts := 1000000001 }]
        : List EncodedLine).map EncodedLine.ts).Nodup ∧
    (([{ meas := "l3_book-X", tags := "pair=P,delta=T",
         fields := "side=\"b\",id=\"o1\",timestamp=1,price=\"2\",amount=\"3\"",
         ts := 1000000000 },
       { meas := "l3_book-X", tags := "pair=P,delta=T",
         fields := "side=\"b\",id=\"o1\",timestamp=1,price=\"2\",amount=\"3\"",
         ts := 1000000001 }] : List EncodedLine).map EncodedLine.ts).Nodup :=
  ⟨(book_delta_index_timestamps_unique "X" "P"
      [[("timestamp", Value.vfloat ⟨1, 0⟩), ("delta", Value.vstr "T"),
        ("side", Value.vstr "b"), ("price", Value.vfloat ⟨2, 0⟩),
        ("size", Value.vfloat ⟨3, 0⟩)],
       [("timestamp", Value.vfloat ⟨1, 0⟩), ("delta", Value.vstr "T"),
        ("side", Value.vstr "b"), ("price", Value.vfloat ⟨2, 0⟩),
        ("size", Value.vfloat ⟨3, 0⟩)]] _).1 rfl,
   (book_delta_index_timestamps_unique "X" "P"
      [[("timestamp", Value.vfloat ⟨1, 0⟩), ("delta", Value.vstr "T"),
        ("side", Value.vstr "b"), ("order_id", Value.vstr "o1"),
        ("price", Value.vfloat ⟨2, 0⟩), ("size", Value.vfloat ⟨3, 0⟩)],
       [("timestamp", Value.vfloat ⟨1, 0⟩), ("delta", Value.vstr "T"),
        ("side", Value.vstr "b"), ("order_id", Value.vstr "o1"),
        ("price", Value.vfloat ⟨2, 0⟩), ("size", Value.vfloat ⟨3, 0⟩)]] _).2 rfl⟩

/-- C4: a batch of exactly one ticker record (bid 128.8, ask 128.95,
timestamp 1577201710.063, pair ETHUSD) produces exactly one line,
`ticker-<exchange>,pair=ETHUSD bid=128.8,ask=128.95,timestamp=1577201710.063 1577201710063000000`;
the base index timestamp comes from exact decimal scaling by 10^9 with
truncation (`Decimal.toNanos`). -/
theorem single_ticker_line_exact : ∀ exchange : String,
    encodeTickerBatch exchange "ETHUSD"
        [[("bid", Value.vfloat ⟨1288, 1⟩), ("ask", Value.vfloat ⟨12895, 2⟩),
          ("timestamp", Value.vfloat ⟨1577201710063, 3⟩)]] =
      .ok [{ meas := "ticker-" ++ exchange, tags := "pair=ETHUSD",
             fields := "bid=128.8,ask=128.95,timestamp=1577201710.063",
             ts := 1577201710063000000 }] ∧
    EncodedLine.render
        { meas := "ticker-" ++ exchange, tags := "pair=ETHUSD",
          fields := "bid=128.8,ask=128.95,timestamp=1577201710.063",
          ts := 1577201710063000000 } =
      "ticker-" ++ exchange
        ++ ",pair=ETHUSD bid=128.8,ask=128.95,timestamp=1577201710.063 1577201710063000000" := by
  intro exchange
  refine ⟨rfl, ?_⟩
  simp only [EncodedLine.render, String.append_assoc]
  congr 2

/-- C5: chunking at 5000 loses nothing: concatenating the chunks in order
reproduces the original encoded sequence, an empty sequence yields no
chunks, and no chunk exceeds 5000 lines. -/
theorem chunking_preserves_lines :
    (∀ l : List String, (chunk l 5000).flatten = l) ∧
    chunk ([] : List String) 5000 = [] ∧
    (∀ l : List String, ∀ c ∈ chunk l 5000, c.length ≤ 5000) :=
  ⟨fun l => chunk_flatten 5000 (by omega) l, chunk_nil 5000,
   fun l c hc => chunk_length_le l 5000 c hc⟩

/-- C5 witness: concrete instances of the chunking claims. -/
theorem chunking_preserves_lines_witness :
    (chunk ["a", "b"] 5000).flatten = ["a", "b"] ∧
    (["a"] : List String).length ≤ 5000 :=
  ⟨chunking_preserves_lines.1 ["a", "b"],
   chunking_preserves_lines.2.2 ["a"] ["a"] (by decide)⟩

/-- C6: when the post of some chunk fails, the chunks before it were
already transmitted, the failing chunk was attempted once, the chunks
after it are never transmitted, no retry happens (each body is sent at
most once), the error surfaces, and `self.data` is not released; the data
reference is set to `None` only when every chunk succeeds. -/
theorem chunk_failure_aborts_without_release :
    ∀ (exchange data_type pair : String) (entry : Entry) (rest : List Entry)
      (lines : List EncodedLine) (good : List String) (b : String)
      (after : List String) (post : String → Bool),
      encodeBatch exchange data_type pair (entry :: rest) = .ok lines →
      requestBodies lines = good ++ b :: after →
      (∀ g ∈ good, post g = true) →
      post b = false →
      write exchange data_type pair (some (entry :: rest)) post =
        { sent := good ++ [b], dataAfter := some (entry :: rest),
          err := some .httpError } ∧
      (∀ post2 : String → Bool, (∀ x ∈ requestBodies lines, post2 x = true) →
        write exchange data_type pair (some (entry :: rest)) post2 =
          { sent := requestBodies lines, dataAfter := none, err := none }) := by
  intro exchange data_type pair entry rest lines good b after post henc hsplit hgood hb
  constructor
  · simp only [write, henc]
    rw [hsplit, sendChunks_fail post good b after hgood hb]
    simp
  · intro post2 hall
    simp only [write, henc]
    rw [sendChunks_all post2 (requestBodies lines) hall]
    simp

/-- C6 witness: a one-chunk ticker batch; a failing post leaves the data
held and reports the error, an all-success post releases it. -/
theorem chunk_failure_aborts_without_release_witness :
    write "X" TICKER "P"
        (some [[("timestamp", Value.vfloat ⟨1, 0⟩), ("bid", Value.vfloat ⟨2, 0⟩),
                ("ask", Value.vfloat ⟨3, 0⟩)]]) (fun _ => false) =
      { sent := ["ticker-X,pair=P bid=2,ask=3,timestamp=1 1000000000"],
        dataAfter := some [[("timestamp", Value.vfloat ⟨1, 0⟩),
          ("bid", Value.vfloat ⟨2, 0⟩), ("ask", Value.vfloat ⟨3, 0⟩)]],
        err := some .httpError } ∧
    write "X" TICKER "P"
        (some [[("timestamp", Value.vfloat ⟨1, 0⟩), ("bid", Value.vfloat ⟨2, 0⟩),
                ("ask", Value.vfloat ⟨3, 0⟩)]]) (fun _ => true) =
      { sent := ["ticker-X,pair=P bid=2,ask=3,timestamp=1 1000000000"],
        dataAfter := none, err := none } := by
  have H := chunk_failure_aborts_without_release "X" TICKER "P"
    [("timestamp", Value.vfloat ⟨1, 0⟩), ("bid", Value.vfloat ⟨2, 0⟩),
     ("ask", Value.vfloat ⟨3, 0⟩)] []
    [{ meas := "ticker-X", tags := "pair=P", fields := "bid=2,ask=3,timestamp=1",
       ts := 1000000000 }]
    [] "ticker-X,pair=P bid=2,ask=3,timestamp=1 1000000000" [] (fun _ => false)
    rfl rfl (by simp) rfl
  exact ⟨H.1, H.2 (fun _ => true) (fun x hx => rfl)⟩

/-- C7: `get_start_date` returns the first value cell
`results[0].series[0].values[0][1]` when the response has that shape, and
collapses a transport error, a response without the expected shape, and
the no-data response `{"results": [{"statement_id": 0}]}` to the same
`none` outcome, raising nothing. -/
theorem start_date_failure_modes :
    get_start_date (.error ()) = none ∧
    (∀ (v0 v : Json) (vs rows : List Json) (tail2 tail3 : List Json)
       (o1 o2 o3 : List (String × Json)),
      get_start_date (.ok (Json.jobj (("results",
        Json.jarr (Json.jobj (("series",
          Json.jarr (Json.jobj (("values",
            Json.jarr (Json.jarr (v0 :: v :: vs) :: rows)) :: o3) :: tail3)) :: o2)
          :: tail2)) :: o1))) = some v) ∧
    (∀ j : Json, j.getKey "results" = none → get_start_date (.ok j) = none) ∧
    get_start_date (.ok (Json.jobj
      [("results", Json.jarr [Json.jobj [("statement_id", Json.jnum ⟨0, 0⟩)]])])) = none := by
  refine ⟨rfl, ?_, ?_, rfl⟩
  · intro v0 v vs rows tail2 tail3 o1 o2 o3
    simp [get_start_date, firstValueCell, Json.getKey, Json.getIdx, List.lookup]
  · intro j h
    simp [get_start_date, firstValueCell, h]

/-- C7 witness: a response whose body is not an object maps to `none`. -/
theorem start_date_failure_modes_witness :
    get_start_date (.ok Json.null) = none :=
  start_date_failure_modes.2.2.1 Json.null rfl

/-- C8: a funding / open-interest line's fields are exactly the entry's
items minus the keys `pair` and `feed` — nothing else is dropped,
whatever the field set — with every float value rendered unquoted and
every other value double-quoted (`renderField`), floats listed first. -/
theorem funding_line_fields_exact :
    ∀ (data_type exchange pair : String) (entry : Entry) (d : Decimal),
      entry.lookup "timestamp" = some (Value.vfloat d) →
      encodeFundingEntry data_type exchange pair entry =
        .ok { meas := data_type ++ "-" ++ exchange, tags := "pair=" ++ pair,
              fields := String.intercalate "," (fundingFormatted entry),
              ts := d.toNanos } ∧
      (fundingFormatted entry).Perm ((fundingTentry entry).map renderField) := by
  intro data_type exchange pair entry d h
  refine ⟨?_, funding_floats_others_perm (fundingTentry entry)⟩
  simp [encodeFundingEntry, getKey, h, decimalNanos]

/-- C8 witness: an entry with `pair`, `feed`, a float field and a string
field; the line keeps exactly `timestamp`, `rate` (unquoted floats) and
`note` (quoted). -/
theorem funding_line_fields_exact_witness :
    encodeFundingEntry "funding" "X" "P"
        [("timestamp", Value.vfloat ⟨15, 1⟩), ("pair", Value.vstr "P"),
         ("feed", Value.vstr "F"), ("rate", Value.vfloat ⟨5, 2⟩),
         ("note", Value.vstr "x")] =
      .ok { meas := "funding-X", tags := "pair=P",
            fields := "timestamp=1.5,rate=0.05,note=\"x\"", ts := 1500000000 } ∧
    (fundingFormatted
        [("timestamp", Value.vfloat ⟨15, 1⟩), ("pair", Value.vstr "P"),
         ("feed", Value.vstr "F"), ("rate", Value.vfloat ⟨5, 2⟩),
         ("note", Value.vstr "x")]).Perm
      ((fundingTentry
        [("timestamp", Value.vfloat ⟨15, 1⟩), ("pair", Value.vstr "P"),
         ("feed", Value.vstr "F"), ("rate", Value.vfloat ⟨5, 2⟩),
         ("note", Value.vstr "x")]).map renderField) :=
  have H := funding_line_fields_exact "funding" "X" "P"
    [("timestamp", Value.vfloat ⟨15, 1⟩), ("pair", Value.vstr "P"),
     ("feed", Value.vstr "F"), ("rate", Value.vfloat ⟨5, 2⟩),
     ("note", Value.vstr "x")] ⟨15, 1⟩ rfl
  ⟨H.1, H.2⟩

/-- C9: encoding a trade, ticker, level-2 or level-3 record that lacks a
required field of its kind fails with an error — it is never silently
skipped and no line without the field is emitted (the whole batch encode
aborts with the exception) — while a ticker record carrying all its
required fields encodes to exactly one full line.  (The encoders are pure
functions of the entry, so the input record is never mutated.) -/
theorem missing_required_field_errors :
    ∀ (exchange pair : String) (entry : Entry),
      ((entry.lookup "side" = none ∨ entry.lookup "amount" = none ∨
        entry.lookup "price" = none ∨ entry.lookup "timestamp" = none) →
        ∃ e, encodeTradesBatch exchange pair [entry] = .error e) ∧
      ((entry.lookup "bid" = none ∨ entry.lookup "ask" = none ∨
        entry.lookup "timestamp" = none) →
        ∃ e, encodeTickerBatch exchange pair [entry] = .error e) ∧
      ((entry.lookup "delta" = none ∨ entry.lookup "side" = none ∨
        entry.lookup "price" = none ∨ entry.lookup "size" = none ∨
        entry.lookup "timestamp" = none) →
        ∃ e, encodeL2Batch exchange pair [entry] [] = .error e) ∧
      ((entry.lookup "delta" = none ∨ entry.lookup "side" = none ∨
        entry.lookup "order_id" = none ∨ entry.lookup "price" = none ∨
        entry.lookup "size" = none ∨ entry.lookup "timestamp" = none) →
        ∃ e, encodeL3Batch exchange pair [entry] [] = .error e) ∧
      (∀ (d : Decimal) (bv av : Value),
        entry.lookup "timestamp" = some (Value.vfloat d) →
        entry.lookup "bid" = some bv → entry.lookup "ask" = some av →
        encodeTickerBatch exchange pair [entry] =
          .ok [{ meas := TICKER ++ "-" ++ exchange, tags := "pair=" ++ pair,
                 fields := "bid=" ++ bv.pyStr ++ ",ask=" ++ av.pyStr
                   ++ ",timestamp=" ++ (Value.vfloat d).pyStr,
                 ts := d.toNanos }]) := by
  intro exchange pair entry
  refine ⟨?_, ?_, ?_, ?_, ?_⟩
  · intro hmiss
    apply of_not_ok
    intro ls hok
    simp only [encodeTradesBatch] at hok
    obtain ⟨tv, htv, hok⟩ := bind_ok_inv hok
    obtain ⟨n, hn, hok⟩ := bind_ok_inv hok
    simp at hok
  · intro hmiss
    apply of_not_ok
    intro ls hok
    simp only [encodeTickerBatch] at hok
    obtain ⟨line, hline, hok⟩ := bind_ok_inv hok
    simp only [encodeTickerEntry] at hline
    obtain ⟨tv, htv, hline⟩ := bind_ok_inv hline
    obtain ⟨ts, hts, hline⟩ := bind_ok_inv hline
    obtain ⟨bv, hbv, hline⟩ := bind_ok_inv hline
    obtain ⟨av, hav, hline⟩ := bind_ok_inv hline
    rcases hmiss with h | h | h
    · simp [getKey, h] at hbv
    · simp [getKey, h] at hav
    · simp [getKey, h] at htv
  · intro hmiss
    apply of_not_ok
    intro ls hok
    simp only [encodeL2Batch] at hok
    obtain ⟨tv, htv, hok⟩ := bind_ok_inv hok
    obtain ⟨base, hbase, hok⟩ := bind_ok_inv hok
    obtain ⟨dv, hdv, hok⟩ := bind_ok_inv hok
    obtain ⟨sv, hsv, hok⟩ := bind_ok_inv hok
    obtain ⟨pv, hpv, hok⟩ := bind_ok_inv hok
    obtain ⟨zv, hzv, hok⟩ := bind_ok_inv hok
    rcases hmiss with h | h | h | h | h
    · simp [getKey, h] at hdv
    · simp [getKey, h] at hsv
    · simp [getKey, h] at hpv
    · simp [getKey, h] at hzv
    · simp [getKey, h] at htv
  · intro hmiss
    apply of_not_ok
    intro ls hok
    simp only [encodeL3Batch] at hok
    obtain ⟨tv, htv, hok⟩ := bind_ok_inv hok
    obtain ⟨base, hbase, hok⟩ := bind_ok_inv hok
    obtain ⟨dv, hdv, hok⟩ := bind_ok_inv hok
    obtain ⟨sv, hsv, hok⟩ := bind_ok_inv hok
    obtain ⟨ov, hov, hok⟩ := bind_ok_inv hok
    obtain ⟨pv, hpv, hok⟩ := bind_ok_inv hok
    obtain ⟨zv, hzv, hok⟩ := bind_ok_inv hok
    rcases hmiss with h | h | h | h | h | h
    · simp [getKey, h] at hdv
    · simp [getKey, h] at hsv
    · simp [getKey, h] at hov
    · simp [getKey, h] at hpv
    · simp [getKey, h] at hzv
    · simp [getKey, h] at htv
  · intro d bv av ht hb ha
    simp [encodeTickerBatch, encodeTickerEntry, getKey, ht, hb, ha, decimalNanos]

/-- C9 witness: the empty record is rejected with an error by every
branch, and a complete ticker record encodes. -/
theorem missing_required_field_errors_witness :
    (∃ e, encodeTradesBatch "X" "P" [[]] = .error e) ∧
    (∃ e, encodeTickerBatch "X" "P" [[]] = .error e) ∧
    (∃ e, encodeL2Batch "X" "P" [[]] [] = .error e) ∧
    (∃ e, encodeL3Batch "X" "P" [[]] [] = .error e) ∧
    encodeTickerBatch "X" "P"
        [[("timestamp", Value.vfloat ⟨1, 0⟩), ("bid", Value.vfloat ⟨2, 0⟩),
          ("ask", Value.vfloat ⟨3, 0⟩)]] =
      .ok [{ meas := "ticker-X", tags := "pair=P",
             fields := "bid=2,ask=3,timestamp=1", ts := 1000000000 }] :=
  have H := missing_required_field_errors "X" "P" ([] : Entry)
  have H2 := missing_required_field_errors "X" "P"
    [("timestamp", Value.vfloat ⟨1, 0⟩), ("bid", Value.vfloat ⟨2, 0⟩),
     ("ask", Value.vfloat ⟨3, 0⟩)]
  ⟨H.1 (Or.inl rfl), H.2.1 (Or.inl rfl), H.2.2.1 (Or.inl rfl),
   H.2.2.2.1 (Or.inl rfl),
   H2.2.2.2.2 ⟨1, 0⟩ (Value.vfloat ⟨2, 0⟩) (Value.vfloat ⟨3, 0⟩) rfl rfl rfl⟩

/-- C10: a non-empty batch of an unrecognized data type falls through
every branch: no line is encoded, nothing is posted, no error is raised,
and `self.data` is still set to `None` — the batch is silently
discarded. -/
theorem unknown_type_silently_discarded :
    ∀ (exchange data_type pair : String) (entry : Entry) (rest : List Entry)
      (post : String → Bool),
      data_type ≠ TRADES → data_type ≠ TICKER → data_type ≠ L2_BOOK →
      data_type ≠ L3_BOOK → data_type ≠ FUNDING → data_type ≠ OPEN_INTEREST →
      encodeBatch exchange data_type pair (entry :: rest) = .ok [] ∧
      write exchange data_type pair (some (entry :: rest)) post =
        { sent := [], dataAfter := none, err := none } := by
  intro exchange data_type pair entry rest post h1 h2 h3 h4 h5 h6
  have henc : encodeBatch exchange data_type pair (entry :: rest) = .ok [] := by
    simp [encodeBatch, h1, h2, h3, h4, h5, h6]
  refine ⟨henc, ?_⟩
  simp only [write, henc]
  have hrb : requestBodies [] = [] := by
    simp [requestBodies, chunk_nil]
  rw [hrb]
  simp [sendChunks]

/-- C10 witness: a batch of one record with the made-up type `book`. -/
theorem unknown_type_silently_discarded_witness :
    encodeBatch "X" "book" "P" [[("a", Value.vstr "b")]] = .ok [] ∧
    write "X" "book" "P" (some [[("a", Value.vstr "b")]]) (fun _ => true) =
      { sent := [], dataAfter := none, err := none } :=
  have H := unknown_type_silently_discarded "X" "book" "P" [("a", Value.vstr "b")] []
    (fun _ => true) (by decide) (by decide) (by decide) (by decide) (by decide)
    (by decide)
  ⟨H.1, H.2⟩

end Cryptostore
